import Mathlib

/-!
Shallow embedding of the DQN trainer of `rurel` (`src/dqn.rs`) and of the
strategy/MDP interfaces it consumes (`src/strategy/*`, `src/mdp/mod.rs`).

Modelling conventions:
* `f32` scalars are modelled by `ℚ` (exact arithmetic stand-in); the `f32`
  square root used by dfdx's `normalize` is modelled by `ratSqrt`, which is
  exact on rationals whose numerator and denominator are perfect squares —
  every concrete input appearing in a theorem below is chosen so that the
  square roots that matter are exact.
* Tensors are `List ℚ` / `List (List ℚ)` (row-major, a `Rank2<BATCH, N>`
  tensor is a list of `BATCH` rows of length `N`).
* The dfdx autodiff engine (`loss.backward()`) is an external library; it is
  a parameter `backward : BackwardFn` of the training step.  The dfdx
  `Sgd::update` optimizer is modelled concretely (`sgdUpdate`): per dfdx
  semantics it fails with "Unused params" when some learnable parameter has
  no gradient, and otherwise applies a Nesterov-momentum step.
* Rust panics (`.expect(...)`) and the Rust `Result`/abort flow are modelled
  with `Except String`.
* The stateful trait objects `Agent`, `ExplorationStrategy` and
  `TerminationStrategy` are modelled by explicit state types and
  state-passing functions.
-/

namespace Rurel

/-- Exact-rational stand-in for the `f32` square root: componentwise integer
square root of numerator and denominator.  It agrees with the real square
root exactly when both are perfect squares. -/
def ratSqrt (q : ℚ) : ℚ := (Int.sqrt q.num : ℚ) / (Nat.sqrt q.den : ℚ)

/-- Mean of a list of rationals (dfdx `mean` reduction; `[]` gives `0`). -/
def meanQ (xs : List ℚ) : ℚ := xs.sum / (xs.length : ℚ)

/-- Population variance (dfdx `var`: mean of squared deviations). -/
def varQ (xs : List ℚ) : ℚ := meanQ (xs.map fun x => (x - meanQ xs) ^ 2)

/-- dfdx `stddev` with stabilizing epsilon: `sqrt (var + eps)`. -/
def stdQ (eps : ℚ) (xs : List ℚ) : ℚ := ratSqrt (varQ xs + eps)

/-- dfdx `normalize` of a `Rank1` tensor along `Axis<0>`: subtract the mean
of the vector's entries and divide by `stddev(eps)` of those entries
(the single-state query path, `dqn.rs:106`). -/
def normalizeVec (eps : ℚ) (xs : List ℚ) : List ℚ :=
  xs.map fun x => (x - meanQ xs) / stdQ eps xs

/-- dfdx `normalize` of a `Rank2<BATCH, N>` tensor along `Axis<1>`
(`dqn.rs:152` and `dqn.rs:169`): the mean and stddev reductions run along
axis 1 (the per-row feature axis), are broadcast back, subtracted and
divided.  Structured as reduction-then-broadcast, as in dfdx. -/
def normalizeAxis1 (eps : ℚ) (m : List (List ℚ)) : List (List ℚ) :=
  List.zipWith (fun row p => row.map fun x => (x - p.1) / p.2)
    m (List.zipWith Prod.mk (m.map meanQ) (m.map (stdQ eps)))

/-- Feature column `j` of a batch matrix: the `j`-th entry of every row. -/
def colOf (m : List (List ℚ)) (j : Nat) : List ℚ := m.map fun r => r.getD j 0

/-- Modelled from the spec: "batched-training calls normalize across the
batch axis per feature column" — entry `(i, j)` is row `i`'s entry `j`
centered and scaled by the mean and stddev of feature column `j` taken over
the whole batch.  This is the spec's reading, to be compared with the
code's `normalizeAxis1`. -/
def normalizeBatchColumnsSpec (eps : ℚ) (m : List (List ℚ)) : List (List ℚ) :=
  m.map fun r =>
    (List.range r.length).map fun j =>
      (r.getD j 0 - meanQ (colOf m j)) / stdQ eps (colOf m j)

/-- ReLU activation. -/
def reluQ (x : ℚ) : ℚ := max x 0

/-- Dot product of two vectors. -/
def dotQ (a b : List ℚ) : ℚ := (List.zipWith (· * ·) a b).sum

/-- One affine layer (dfdx `nn::modules::Linear`): weight matrix stored as
rows (one row per output neuron) plus a bias vector. -/
structure Linear where
  weight : List (List ℚ)
  bias : List ℚ
deriving DecidableEq

/-- Forward pass of one affine layer: `W x + b`. -/
def Linear.forward (l : Linear) (x : List ℚ) : List ℚ :=
  List.zipWith (fun w b => dotQ w x + b) l.weight l.bias

/-- The `QNetworkDevice` architecture of `dqn.rs:21`:
`(Linear, ReLU), (Linear, ReLU), Linear`. -/
structure QNetworkDevice where
  l1 : Linear
  l2 : Linear
  l3 : Linear
deriving DecidableEq

/-- Forward pass of the three-layer network with ReLU after layers 1 and 2. -/
def QNetworkDevice.forward (n : QNetworkDevice) (x : List ℚ) : List ℚ :=
  n.l3.forward ((n.l2.forward ((n.l1.forward x).map reluQ)).map reluQ)

/-- Gradient for one `Linear`; `none` models a parameter tensor that is
missing from the dfdx `Gradients` map (an "unused parameter"). -/
structure LinearGrads where
  weight : Option (List (List ℚ))
  bias : Option (List ℚ)
deriving DecidableEq

/-- Gradients for the whole network, as produced by `loss.backward()`. -/
structure Gradients where
  g1 : LinearGrads
  g2 : LinearGrads
  g3 : LinearGrads
deriving DecidableEq

/-- True when every learnable parameter has received a gradient. -/
def Gradients.complete (g : Gradients) : Bool :=
  g.g1.weight.isSome && g.g1.bias.isSome && g.g2.weight.isSome && g.g2.bias.isSome
    && g.g3.weight.isSome && g.g3.bias.isSome

/-- Momentum accumulator for one `Linear` (dfdx SGD velocity buffers). -/
structure LinearVel where
  weight : List (List ℚ)
  bias : List ℚ
deriving DecidableEq

/-- Momentum accumulators for the whole network. -/
structure Velocities where
  v1 : LinearVel
  v2 : LinearVel
  v3 : LinearVel
deriving DecidableEq

/-- Nesterov velocity update per entry: `v_new = g + mom * v`. -/
def vecVel (mom : ℚ) (v g : List ℚ) : List ℚ :=
  List.zipWith (fun vi gi => gi + mom * vi) v g

/-- Nesterov parameter step per entry: `p_new = p - lr * (g + mom * v_new)`
(dfdx `Momentum::Nesterov`). -/
def vecStep (lr mom : ℚ) (p g vNew : List ℚ) : List ℚ :=
  List.zipWith (fun pi gv => pi - lr * gv) p
    (List.zipWith (fun gi vi => gi + mom * vi) g vNew)

/-- Nesterov step for a weight matrix, row by row. -/
def matStep (lr mom : ℚ) (p g vNew : List (List ℚ)) : List (List ℚ) :=
  List.zipWith (fun pr gv => vecStep lr mom pr gv.1 gv.2) p (List.zip g vNew)

/-- Nesterov step for one `Linear` layer (weights and bias). -/
def linStep (lr mom : ℚ) (l : Linear) (v : LinearVel)
    (gw : List (List ℚ)) (gb : List ℚ) : Linear × LinearVel :=
  let vw := List.zipWith (vecVel mom) v.weight gw
  let vb := vecVel mom v.bias gb
  (⟨matStep lr mom l.weight gw vw, vecStep lr mom l.bias gb vb⟩, ⟨vw, vb⟩)

/-- Model of dfdx `Sgd::update` with `Momentum::Nesterov`, no weight decay:
fails with "Unused params" if any learnable parameter received no gradient
(the dfdx `UnusedTensors` error, surfaced by `.expect("Unused params")` at
`dqn.rs:191`), otherwise applies one Nesterov step to every parameter. -/
def sgdUpdate (lr mom : ℚ) (vel : Velocities) (net : QNetworkDevice)
    (g : Gradients) : Except String (Velocities × QNetworkDevice) :=
  match g.g1.weight, g.g1.bias, g.g2.weight, g.g2.bias, g.g3.weight, g.g3.bias with
  | some gw1, some gb1, some gw2, some gb2, some gw3, some gb3 =>
    let (l1, v1) := linStep lr mom net.l1 vel.v1 gw1 gb1
    let (l2, v2) := linStep lr mom net.l2 vel.v2 gw2 gb2
    let (l3, v3) := linStep lr mom net.l3 vel.v3 gw3 gb3
    .ok (⟨v1, v2, v3⟩, ⟨l1, l2, l3⟩)
  | _, _, _, _, _, _ => .error "Unused params"

/-- Zero velocity buffers shaped like a given layer. -/
def zeroVelOfLin (l : Linear) : LinearVel :=
  ⟨l.weight.map (fun r => r.map fun _ => 0), l.bias.map fun _ => 0⟩

/-- Zero velocity buffers shaped like a given network. -/
def zeroVelOf (n : QNetworkDevice) : Velocities :=
  ⟨zeroVelOfLin n.l1, zeroVelOfLin n.l2, zeroVelOfLin n.l3⟩

/-- The `DQNAgentTrainer` state (`dqn.rs:34`): discount factor, the online
and target networks, and the SGD optimizer state (learning rate, momentum
coefficient, velocity buffers). -/
structure DQNAgentTrainer where
  gamma : ℚ
  lr : ℚ
  momentum : ℚ
  q_network : QNetworkDevice
  target_q_net : QNetworkDevice
  vel : Velocities
deriving DecidableEq

/-- `DQNAgentTrainer::new` (`dqn.rs:71`): dfdx builds a randomly initialized
online network (the random draw `net0` is an input here), the target network
is a clone of it, and the SGD optimizer is created with the given learning
rate and Nesterov momentum `0.9`. -/
def DQNAgentTrainer.new (gamma lr : ℚ) (net0 : QNetworkDevice) : DQNAgentTrainer :=
  { gamma := gamma, lr := lr, momentum := 9 / 10,
    q_network := net0, target_q_net := net0, vel := zeroVelOf net0 }

/-- The `f32` NaN guard `nans_to(0.0)` of `dqn.rs:107`.  `ℚ` has no NaN
value, so on this carrier the guard is the identity; it is kept in the
pipeline to mark where the code applies it. -/
def nansTo (_d : ℚ) (x : ℚ) : ℚ := x

/-- `DQNAgentTrainer::expected_value` (`dqn.rs:103`): normalize the state
vector along its feature axis, forward pass through the **target** network,
replace NaNs by `0`. -/
def DQNAgentTrainer.expected_value (tr : DQNAgentTrainer) (state : List ℚ) : List ℚ :=
  (tr.target_q_net.forward (normalizeVec (1 / 1000) state)).map (nansTo 0)

/-- `DQNAgentTrainer::export_learned_values` (`dqn.rs:112`): a clone of the
online network. -/
def DQNAgentTrainer.export_learned_values (tr : DQNAgentTrainer) : QNetworkDevice :=
  tr.q_network

/-- `DQNAgentTrainer::import_model` (`dqn.rs:122`): the online network is
replaced by the imported model, then the target network by the online one. -/
def DQNAgentTrainer.import_model (tr : DQNAgentTrainer) (model : QNetworkDevice) :
    DQNAgentTrainer :=
  { tr with q_network := model, target_q_net := model }

/-- `DQNAgentTrainer::best_action` (`dqn.rs:128`): hand the expected-value
vector to the domain-supplied decoder (`S::A: From<[f32; ACTION_SIZE]>`) and
wrap it in `Some`. -/
def DQNAgentTrainer.best_action {A : Type} (decode : List ℚ → A)
    (tr : DQNAgentTrainer) (state : List ℚ) : Option A :=
  some (decode (tr.expected_value state))

/-- The action-vector decoder inlined at `dqn.rs:155`–`165`: running
maximum seeded with `max_idx = 0`, `max_val = 0.0`, strict comparison. -/
def decodeActionAux : List ℚ → Nat → Nat → ℚ → Nat
  | [], _, maxIdx, _ => maxIdx
  | v :: rest, i, maxIdx, maxVal =>
    if maxVal < v then decodeActionAux rest (i + 1) i v
    else decodeActionAux rest (i + 1) maxIdx maxVal

/-- Decode one action vector to a scalar index, as the code does. -/
def decodeAction (a : List ℚ) : Nat := decodeActionAux a 0 0 0

/-- Maximum entry of a list (`0` for the empty list, which cannot occur for
an `ACTION_SIZE ≥ 1` action vector). -/
def listMaxQ : List ℚ → ℚ
  | [] => 0
  | x :: xs => xs.foldl max x

/-- Index of the first occurrence of `y` (`length` if absent). -/
def firstIdxOf (y : ℚ) : List ℚ → Nat
  | [] => 0
  | x :: xs => if x = y then 0 else firstIdxOf y xs + 1

/-- Modelled from the spec: "the position of the maximum element, scanning
left to right, with the first strict maximum winning on ties". -/
def argmaxFirst (a : List ℚ) : Nat := firstIdxOf (listMaxQ a) a

/-- Per-row maximum (dfdx `max` reduction `Rank2<B,A> → Rank1<B>`,
`dqn.rs:181`); action rows are nonempty in the program. -/
def rowMax : List ℚ → ℚ
  | [] => 0
  | x :: xs => xs.foldl max x

/-- dfdx `select` gather (`dqn.rs:175`): pick entry `idx` of each row. -/
def selectQ (qvals : List (List ℚ)) (idxs : List Nat) : List ℚ :=
  List.zipWith (fun row i => row.getD i 0) qvals idxs

/-- dfdx `huber_loss` per element: quadratic for `|x - y| < delta`, linear
beyond. -/
def huberEl (delta x y : ℚ) : ℚ :=
  if |x - y| < delta then (x - y) ^ 2 / 2 else delta * (|x - y| - delta / 2)

/-- dfdx `huber_loss` (`dqn.rs:184`): mean of the per-element Huber errors. -/
def huber_loss (pred targ : List ℚ) (delta : ℚ) : ℚ :=
  meanQ (List.zipWith (huberEl delta) pred targ)

/-- The values that stay fixed during the 20-step inner gradient loop of
`train_dqn`: the (resynced) target network, the normalized state batches,
the decoded action indices, the reward and 0/1-done vectors, and the
optimizer configuration. -/
structure LoopCtx where
  gamma : ℚ
  lr : ℚ
  mom : ℚ
  target_q_net : QNetworkDevice
  statesN : List (List ℚ)
  nextStatesN : List (List ℚ)
  actionIdxs : List Nat
  rewards : List ℚ
  donesF : List ℚ
deriving DecidableEq

/-- `dqn.rs:180`–`181`: forward-pass the target network on the normalized
`next_states` rows, then take each row's maximum. -/
def maxNextQ (ctx : LoopCtx) : List ℚ :=
  (ctx.nextStatesN.map ctx.target_q_net.forward).map rowMax

/-- `dqn.rs:182`: `target_q = (max_next_q * (-dones + 1.0)) * gamma + rewards`,
elementwise. -/
def computeTargetQ (ctx : LoopCtx) : List ℚ :=
  List.zipWith (fun p r => p.1 * (-p.2 + 1) * ctx.gamma + r)
    (List.zip (maxNextQ ctx) ctx.donesF) ctx.rewards

/-- The dfdx autodiff engine (`loss.backward()`), an external collaborator:
from the online network, the normalized states, the decoded action indices,
the regression targets and the loss value it produces the gradients of the
loss with respect to every online parameter. -/
abbrev BackwardFn :=
  QNetworkDevice → List (List ℚ) → List Nat → List ℚ → ℚ → Gradients

/-- One iteration of the inner gradient loop (`dqn.rs:173`–`192`): forward
the online network on the normalized states, gather the decoded actions'
values, compute the regression targets against the fixed target network,
take the Huber loss, differentiate, and apply one SGD update.  A failing
update (`Unused params`) aborts. -/
def innerStep (backward : BackwardFn) (ctx : LoopCtx)
    (st : QNetworkDevice × Velocities) :
    Except String (QNetworkDevice × Velocities) :=
  let q_values := ctx.statesN.map st.1.forward
  let action_qs := selectQ q_values ctx.actionIdxs
  let target_q := computeTargetQ ctx
  let loss := huber_loss action_qs target_q 1
  let grads := backward st.1 ctx.statesN ctx.actionIdxs target_q loss
  match sgdUpdate ctx.lr ctx.mom st.2 st.1 grads with
  | .error e => .error e
  | .ok (v, net) => .ok (net, v)

/-- The inner gradient loop: `n` iterations of `innerStep`, stopping at the
first error (`dqn.rs:172`, `for _step in 0..20`). -/
def innerLoop (backward : BackwardFn) (ctx : LoopCtx) :
    Nat → QNetworkDevice × Velocities → Except String (QNetworkDevice × Velocities)
  | 0, st => .ok st
  | n + 1, st =>
    match innerStep backward ctx st with
    | .error e => .error e
    | .ok st' => innerLoop backward ctx n st'

/-- The loop context built at the top of `train_dqn` (`dqn.rs:143`–`169`):
the target network is resynced to the online one, dones are mapped to 0/1,
both state batches are normalized along `Axis<1>`, and the action vectors
are decoded to indices. -/
def trainCtx (tr : DQNAgentTrainer) (states actions next_states : List (List ℚ))
    (rewards : List ℚ) (dones : List Bool) : LoopCtx :=
  { gamma := tr.gamma, lr := tr.lr, mom := tr.momentum,
    target_q_net := tr.q_network,
    statesN := normalizeAxis1 (1 / 1000) states,
    nextStatesN := normalizeAxis1 (1 / 1000) next_states,
    actionIdxs := actions.map decodeAction,
    rewards := rewards,
    donesF := dones.map fun d => if d then (1 : ℚ) else 0 }

/-- `DQNAgentTrainer::train_dqn` (`dqn.rs:135`): resync target ← online,
prepare the loop context, run 20 gradient iterations, and finally resync
target ← online again.  An `Unused params` failure inside the loop aborts
the call (the Rust `.expect` panic). -/
def DQNAgentTrainer.train_dqn (tr : DQNAgentTrainer) (backward : BackwardFn)
    (states actions next_states : List (List ℚ)) (rewards : List ℚ)
    (dones : List Bool) : Except String DQNAgentTrainer :=
  match innerLoop backward (trainCtx tr states actions next_states rewards dones)
      20 (tr.q_network, tr.vel) with
  | .error e => .error e
  | .ok (q, v) =>
    .ok { tr with q_network := q, vel := v, target_q_net := q }

/-- The five batch arrays of `train` (`dqn.rs:207`–`223`), all
zero/false-initialized before collection. -/
structure BatchArrays where
  states : List (List ℚ)
  actions : List (List ℚ)
  next_states : List (List ℚ)
  rewards : List ℚ
  dones : List Bool
deriving DecidableEq

/-- The batch-collection loop body of `train` (`dqn.rs:227`–`244`), with the
external trait objects passed as explicit state-transition functions:
`current_state` reads the agent, `pick_action` models
`ExplorationStrategy::pick_action` (selects and applies one action, possibly
mutating the agent), `rewardOf` models `State::reward`, `should_stop` models
the stateful `TerminationStrategy::should_stop`, and `toVecS`/`toVecA` are
the domain's `Into<[f32; _]>` conversions.  `fuel` counts the remaining loop
iterations (`BATCH - i`); on a positive `should_stop` the done flag at `i`
is set and filling stops early. -/
def collectGo {S A Ag Tm : Type}
    (current_state : Ag → S) (pick_action : Ag → A × Ag) (rewardOf : S → ℚ)
    (should_stop : Tm → S → Bool × Tm)
    (toVecS : S → List ℚ) (toVecA : A → List ℚ) :
    Nat → Nat → BatchArrays → Ag → Tm → S → BatchArrays × Ag × Tm × S
  | 0, _, arrs, ag, tm, sLast => (arrs, ag, tm, sLast)
  | fuel + 1, i, arrs, ag, tm, _ =>
    match should_stop tm (current_state (pick_action ag).2) with
    | (true, tm') =>
      ({ states := arrs.states.set i (toVecS (current_state ag)),
         actions := arrs.actions.set i (toVecA (pick_action ag).1),
         next_states := arrs.next_states.set i (toVecS (current_state (pick_action ag).2)),
         rewards := arrs.rewards.set i (rewardOf (current_state (pick_action ag).2)),
         dones := arrs.dones.set i true },
       (pick_action ag).2, tm', current_state (pick_action ag).2)
    | (false, tm') =>
      collectGo current_state pick_action rewardOf should_stop toVecS toVecA
        fuel (i + 1)
        { states := arrs.states.set i (toVecS (current_state ag)),
          actions := arrs.actions.set i (toVecA (pick_action ag).1),
          next_states := arrs.next_states.set i (toVecS (current_state (pick_action ag).2)),
          rewards := arrs.rewards.set i (rewardOf (current_state (pick_action ag).2)),
          dones := arrs.dones }
        (pick_action ag).2 tm' (current_state (pick_action ag).2)

/-- One batch collection (`dqn.rs:206`–`244`): the five arrays are
initialized to all-zero rows (of the trainer's `STATE_SIZE`/`ACTION_SIZE`)
and all-false dones, and the loop runs for `i = 0..64`. -/
def collectBatch {S A Ag Tm : Type}
    (current_state : Ag → S) (pick_action : Ag → A × Ag) (rewardOf : S → ℚ)
    (should_stop : Tm → S → Bool × Tm)
    (toVecS : S → List ℚ) (toVecA : A → List ℚ)
    (stateSize actionSize : Nat) (ag : Ag) (tm : Tm) : BatchArrays × Ag × Tm × S :=
  collectGo current_state pick_action rewardOf should_stop toVecS toVecA 64 0
    { states := List.replicate 64 (List.replicate stateSize 0),
      actions := List.replicate 64 (List.replicate actionSize 0),
      next_states := List.replicate 64 (List.replicate stateSize 0),
      rewards := List.replicate 64 0,
      dones := List.replicate 64 false }
    ag tm (current_state ag)

/-- `DQNAgentTrainer::train` (`dqn.rs:199`): repeat batch collection and
`train_dqn`, then query the termination strategy once more on the most
recently observed state; stop exactly when that call returns true.  `fuel`
bounds the number of outer iterations (`none` = still running), and a
`train_dqn` abort surfaces as `some (.error e)`. -/
def DQNAgentTrainer.train {S A Ag Tm : Type}
    (current_state : Ag → S) (pick_action : Ag → A × Ag) (rewardOf : S → ℚ)
    (should_stop : Tm → S → Bool × Tm)
    (toVecS : S → List ℚ) (toVecA : A → List ℚ)
    (stateSize actionSize : Nat) (backward : BackwardFn) :
    Nat → DQNAgentTrainer → Ag → Tm →
      Option (Except String (DQNAgentTrainer × Ag × Tm))
  | 0, _, _, _ => none
  | fuel + 1, tr, ag, tm =>
    match collectBatch current_state pick_action rewardOf should_stop toVecS toVecA
        stateSize actionSize ag tm with
    | (arrs, ag', tm', sLast) =>
      match tr.train_dqn backward arrs.states arrs.actions arrs.next_states
          arrs.rewards arrs.dones with
      | .error e => some (.error e)
      | .ok tr' =>
        match should_stop tm' sLast with
        | (true, tm2) => some (.ok (tr', ag', tm2))
        | (false, tm2) =>
          DQNAgentTrainer.train current_state pick_action rewardOf should_stop
            toVecS toVecA stateSize actionSize backward fuel tr' ag' tm2

/-- `FixedIterations` (`src/strategy/terminate/fixed_iterations.rs`): a
call counter and a cap. -/
structure FixedIterations where
  i : Nat
  iters : Nat
deriving DecidableEq

/-- `FixedIterations::should_stop`: increment the counter on every call and
stop once it exceeds the cap (the argument state is ignored). -/
def FixedIterations.should_stop {S : Type} (f : FixedIterations) (_s : S) :
    Bool × FixedIterations :=
  (decide (f.iters < f.i + 1), ⟨f.i + 1, f.iters⟩)

/-- Concrete 1-1-1-sized all-zero network used as a test fixture. -/
def netZ : QNetworkDevice := ⟨⟨[[0]], [0]⟩, ⟨[[0]], [0]⟩, ⟨[[0]], [0]⟩⟩

/-- Trainer fixture: `new` with `gamma = 0`, `lr = 0`, the zero network. -/
def trZ : DQNAgentTrainer := DQNAgentTrainer.new 0 0 netZ

/-- Complete zero gradients for the 1-1-1 network. -/
def gradsZ : Gradients :=
  ⟨⟨some [[0]], some [0]⟩, ⟨some [[0]], some [0]⟩, ⟨some [[0]], some [0]⟩⟩

/-- Backward-engine fixture returning complete zero gradients. -/
def bwZ : BackwardFn := fun _ _ _ _ _ => gradsZ

/-- Gradients with every parameter missing (all tensors unused). -/
def gradsNone : Gradients := ⟨⟨none, none⟩, ⟨none, none⟩, ⟨none, none⟩⟩

/-- Backward-engine fixture that never produces any gradient. -/
def bwNone : BackwardFn := fun _ _ _ _ _ => gradsNone

/-- A 64-row batch of one-feature zero state rows. -/
def batchZS : List (List ℚ) := List.replicate 64 [0]

/-- A 64-entry zero reward vector. -/
def batchZR : List ℚ := List.replicate 64 0

/-- A 64-entry all-false done vector. -/
def batchZD : List Bool := List.replicate 64 false

/-- A 64-row, 2-feature batch on which row-axis and column-axis
normalization visibly differ: 32 rows of `[9/200, 9/200]` followed by 32
rows of `[-9/200, -9/200]`.  Every row is constant, so row normalization
sends it to zeros; each column has mean 0 and variance `81/40000`, so with
epsilon `1/1000` the column denominator is exactly `11/200` and column
normalization gives `±9/11`. -/
def colBatchCex : List (List ℚ) :=
  List.replicate 32 [9 / 200, 9 / 200] ++ List.replicate 32 [-9 / 200, -9 / 200]

/-- Specification predicate for a collected batch: all five arrays have
length 64; every entry strictly beyond a set done flag is still in its
zero/false initial state; and at most one done flag is set. -/
def BatchOk (nS nA : Nat) (b : BatchArrays) : Prop :=
  b.states.length = 64 ∧ b.actions.length = 64 ∧ b.next_states.length = 64
    ∧ b.rewards.length = 64 ∧ b.dones.length = 64
    ∧ (∀ i j, i < j → j < 64 → b.dones.getD i false = true →
        b.states.getD j [] = List.replicate nS 0
          ∧ b.actions.getD j [] = List.replicate nA 0
          ∧ b.next_states.getD j [] = List.replicate nS 0
          ∧ b.rewards.getD j 0 = 0
          ∧ b.dones.getD j false = false)
    ∧ (∀ i j, b.dones.getD i false = true → b.dones.getD j false = true → i = j)

/-- Toy stateful termination strategy for test fixtures: its state is a call
counter and it reports stop exactly on the first call. -/
def stZ : Nat → Unit → Bool × Nat := fun n _ => (n == 0, n + 1)

/-- The batch that `collectBatch` produces with the trivial unit agent and
`stZ` starting at 0: the strategy stops at index 0, so only index 0 was
filled (with zeros) and its done flag is set. -/
def arrsC : BatchArrays :=
  { states := List.replicate 64 [0],
    actions := List.replicate 64 [0],
    next_states := List.replicate 64 [0],
    rewards := List.replicate 64 0,
    dones := (List.replicate 64 false).set 0 true }

/-! Helper lemmas about `foldl max` and the inlined action decoder. -/

theorem le_foldlMax (l : List ℚ) (v : ℚ) : v ≤ l.foldl max v := by
  induction l generalizing v with
  | nil => exact le_refl v
  | cons c t ih => exact le_trans (le_max_left v c) (ih (max v c))

theorem mem_le_foldlMax (l : List ℚ) (v x : ℚ) (hx : x ∈ l) : x ≤ l.foldl max v := by
  induction l generalizing v with
  | nil => cases hx
  | cons c t ih =>
    rcases List.mem_cons.mp hx with h | h
    · subst h
      exact le_trans (le_max_right v x) (le_foldlMax t (max v x))
    · exact ih (max v c) h

theorem foldlMax_of_le (l : List ℚ) (v : ℚ) (h : ∀ x ∈ l, x ≤ v) :
    l.foldl max v = v := by
  induction l with
  | nil => rfl
  | cons c t ih =>
    have hc : max v c = v := max_eq_left (h c (List.mem_cons_self c t))
    simp only [List.foldl_cons, hc]
    exact ih fun x hx => h x (List.mem_cons_of_mem c hx)

theorem foldlMax_max (l : List ℚ) (a b : ℚ) :
    l.foldl max (max a b) = max a (l.foldl max b) := by
  induction l generalizing b with
  | nil => rfl
  | cons c t ih =>
    simp only [List.foldl_cons, max_assoc]
    exact ih (max b c)

theorem mem_le_listMaxQ (a : List ℚ) (x : ℚ) (hx : x ∈ a) : x ≤ listMaxQ a := by
  cases a with
  | nil => cases hx
  | cons c t =>
    rcases List.mem_cons.mp hx with h | h
    · subst h
      exact le_foldlMax t x
    · exact mem_le_foldlMax t c x h

theorem decodeActionAux_of_le (l : List ℚ) (i idx : Nat) (m : ℚ)
    (h : ∀ x ∈ l, x ≤ m) : decodeActionAux l i idx m = idx := by
  induction l generalizing i with
  | nil => rfl
  | cons c t ih =>
    have hc : ¬ m < c := not_lt.mpr (h c (List.mem_cons_self c t))
    simp only [decodeActionAux, if_neg hc]
    exact ih (i + 1) fun x hx => h x (List.mem_cons_of_mem c hx)

theorem decodeActionAux_eq (l : List ℚ) (i idx : Nat) (m : ℚ)
    (h : ∃ x ∈ l, m < x) :
    decodeActionAux l i idx m = i + firstIdxOf (l.foldl max m) l := by
  induction l generalizing i idx m with
  | nil => obtain ⟨x, hx, _⟩ := h; cases hx
  | cons c t ih =>
    by_cases hc : m < c
    · simp only [decodeActionAux, if_pos hc, List.foldl_cons,
        max_eq_right (le_of_lt hc)]
      by_cases ht : ∃ x ∈ t, c < x
      · obtain ⟨x, hxt, hcx⟩ := ht
        have hcM : c < t.foldl max c :=
          lt_of_lt_of_le hcx (mem_le_foldlMax t c x hxt)
        rw [ih (i + 1) i c ⟨x, hxt, hcx⟩]
        simp only [firstIdxOf, if_neg (ne_of_lt hcM)]
        omega
      · push_neg at ht
        rw [decodeActionAux_of_le t (i + 1) i c ht,
          foldlMax_of_le t c ht]
        simp [firstIdxOf]
    · have hcm : c ≤ m := le_of_not_lt hc
      obtain ⟨x, hx, hmx⟩ := h
      have hxt : x ∈ t := by
        rcases List.mem_cons.mp hx with h1 | h1
        · subst h1; exact absurd hmx (not_lt.mpr hcm)
        · exact h1
      have hT : ∃ x ∈ t, m < x := ⟨x, hxt, hmx⟩
      have hM : c < t.foldl max m :=
        lt_of_le_of_lt hcm (lt_of_lt_of_le hmx (mem_le_foldlMax t m x hxt))
      simp only [decodeActionAux, if_neg hc, List.foldl_cons,
        max_eq_left hcm]
      rw [ih (i + 1) idx m hT]
      simp only [firstIdxOf, if_neg (ne_of_lt hM)]
      omega

/-- C2 (amended): the decoded index is the position of the maximum element
(first strict maximum winning ties) whenever some entry of the action vector
is strictly positive; when every entry is `≤ 0` (in particular for all-zero
and all-negative vectors) the decoder returns index 0 regardless of where
the maximum sits, because the running maximum is seeded with `0.0`. -/
theorem C2_decode_argmax (a : List ℚ) :
    ((∃ x ∈ a, 0 < x) → decodeAction a = argmaxFirst a)
    ∧ ((∀ x ∈ a, x ≤ 0) → decodeAction a = 0) := by
  constructor
  · intro h
    have hzero : a.foldl max 0 = listMaxQ a := by
      obtain ⟨x, hx, hpos⟩ := h
      cases a with
      | nil => cases hx
      | cons c t =>
        have hMpos : 0 < listMaxQ (c :: t) :=
          lt_of_lt_of_le hpos (mem_le_listMaxQ (c :: t) x hx)
        have : (0 : ℚ) ⊔ c = c ⊔ 0 := max_comm 0 c
        calc (c :: t).foldl max 0 = t.foldl max (max 0 c) := by
              simp [List.foldl_cons]
          _ = max 0 (t.foldl max c) := foldlMax_max t 0 c
          _ = listMaxQ (c :: t) := max_eq_right (le_of_lt hMpos)
    rw [decodeAction, decodeActionAux_eq a 0 0 0 h, hzero, Nat.zero_add]
    rfl
  · intro h
    exact decodeActionAux_of_le a 0 0 0 h

/-- C2 counterexample: on the all-negative action vector `[-2, -1]` the code
decodes index 0 while the position of the maximum element is 1. -/
theorem C2_counterexample :
    decodeAction [(-2 : ℚ), -1] = 0 ∧ argmaxFirst [(-2 : ℚ), -1] = 1
    ∧ decodeAction [(-2 : ℚ), -1] ≠ argmaxFirst [(-2 : ℚ), -1] := by
  with_unfolding_all decide

/-- C2 witness: concrete instances for both branches of the amended claim. -/
theorem C2_decode_argmax_witness :
    ((∃ x ∈ [(1 : ℚ) / 2, 2, 2], 0 < x)
      ∧ decodeAction [(1 : ℚ) / 2, 2, 2] = argmaxFirst [(1 : ℚ) / 2, 2, 2])
    ∧ ((∀ x ∈ [(-2 : ℚ), 0], x ≤ 0) ∧ decodeAction [(-2 : ℚ), 0] = 0) :=
  ⟨⟨by with_unfolding_all decide, (C2_decode_argmax _).1 (by with_unfolding_all decide)⟩,
   ⟨by with_unfolding_all decide, (C2_decode_argmax _).2 (by with_unfolding_all decide)⟩⟩

/-! C3: which axis does each normalization path use? -/

theorem zipWith_map_pair {α β : Type} (f : α → ℚ × ℚ → β) (g h : α → ℚ)
    (l : List α) :
    List.zipWith f l (List.zipWith Prod.mk (l.map g) (l.map h))
      = l.map fun x => f x (g x, h x) := by
  induction l with
  | nil => rfl
  | cons a t ih => simp only [List.map_cons, List.zipWith_cons_cons, ih]

theorem normalizeAxis1_eq_map (eps : ℚ) (m : List (List ℚ)) :
    normalizeAxis1 eps m = m.map (normalizeVec eps) := by
  rw [normalizeAxis1]
  exact zipWith_map_pair _ meanQ (stdQ eps) m

theorem normalizeVec_const_pair (eps a : ℚ) :
    normalizeVec eps [a, a] = [0, 0] := by
  have hm : meanQ [a, a] = a := by
    simp only [meanQ, List.sum_cons, List.sum_nil, List.length_cons,
      List.length_nil]
    push_cast
    ring
  simp [normalizeVec, hm, sub_self, zero_div]

/-- C3 (amended): both call paths normalize across the feature axis with
epsilon `0.001` — the single-state query normalizes its one input vector
across its features, and the batched training call normalizes each row
(each state's feature vector) across its features, i.e. dfdx `Axis<1>` of
the `[64, STATE_SIZE]` tensor is the feature axis, not the batch axis. -/
theorem C3_normalization_axis (eps : ℚ) (m : List (List ℚ))
    (tr : DQNAgentTrainer) (s : List ℚ) :
    normalizeAxis1 eps m = m.map (normalizeVec eps)
    ∧ tr.expected_value s
        = (tr.target_q_net.forward (normalizeVec (1 / 1000) s)).map (nansTo 0) :=
  ⟨normalizeAxis1_eq_map eps m, rfl⟩

theorem col0_of_colBatchCex :
    colOf colBatchCex 0
      = List.replicate 32 ((9 : ℚ) / 200) ++ List.replicate 32 ((-9 : ℚ) / 200) := by
  rfl

theorem meanQ_col0 :
    meanQ (List.replicate 32 ((9 : ℚ) / 200) ++ List.replicate 32 ((-9 : ℚ) / 200)) = 0 := by
  simp only [meanQ, List.sum_append, List.sum_replicate, List.length_append,
    List.length_replicate, nsmul_eq_mul]
  norm_num

theorem varQ_col0 :
    varQ (List.replicate 32 ((9 : ℚ) / 200) ++ List.replicate 32 ((-9 : ℚ) / 200))
      = 81 / 40000 := by
  rw [varQ, meanQ_col0]
  simp only [meanQ, List.map_append, List.map_replicate, List.sum_append,
    List.sum_replicate, List.length_append, List.length_replicate, nsmul_eq_mul]
  norm_num

theorem stdQ_col0 :
    stdQ (1 / 1000)
      (List.replicate 32 ((9 : ℚ) / 200) ++ List.replicate 32 ((-9 : ℚ) / 200))
      = 11 / 200 := by
  rw [stdQ, varQ_col0]
  have h1 : (81 / 40000 : ℚ) + 1 / 1000 = 121 / 40000 := by norm_num
  rw [h1, ratSqrt]
  have hnum : ((121 : ℚ) / 40000).num = 121 := by with_unfolding_all decide
  have hden : ((121 : ℚ) / 40000).den = 40000 := by with_unfolding_all decide
  rw [hnum, hden]
  have hi : Int.sqrt 121 = 11 := by
    rw [show (121 : ℤ) = 11 * 11 from rfl]
    exact Int.sqrt_eq 11
  have hn : Nat.sqrt 40000 = 200 := by
    rw [show (40000 : ℕ) = 200 * 200 from rfl]
    exact Nat.sqrt_eq 200
  rw [hi, hn]
  norm_num

/-- C3 counterexample: on a concrete 64-row batch the code's `Axis<1>`
normalization (each row across its features) disagrees with the
column-across-the-batch normalization asserted by the claim: every row of
the batch is constant, so the code produces the all-zero matrix, while the
per-column statistics give entry `(0,0) = 9/11`. -/
theorem C3_counterexample :
    normalizeAxis1 (1 / 1000) colBatchCex
      ≠ normalizeBatchColumnsSpec (1 / 1000) colBatchCex := by
  intro h
  have hL : ((normalizeAxis1 (1 / 1000) colBatchCex).getD 0 []).getD 0 0 = 0 := by
    rw [normalizeAxis1_eq_map]
    have hh : (colBatchCex.map (normalizeVec (1 / 1000))).getD 0 []
        = normalizeVec (1 / 1000) [9 / 200, 9 / 200] := rfl
    rw [hh, normalizeVec_const_pair]
    rfl
  have hR : ((normalizeBatchColumnsSpec (1 / 1000) colBatchCex).getD 0 []).getD 0 0
      = 9 / 11 := by
    have hhd : (normalizeBatchColumnsSpec (1 / 1000) colBatchCex).getD 0 []
        = (List.range 2).map fun j =>
            (([(9 : ℚ) / 200, 9 / 200].getD j 0) - meanQ (colOf colBatchCex j))
              / stdQ (1 / 1000) (colOf colBatchCex j) := rfl
    have hrange : List.range 2 = [0, 1] := rfl
    rw [hhd, hrange, List.map_cons, List.getD_cons_zero]
    show (([(9 : ℚ) / 200, 9 / 200].getD 0 0) - meanQ (colOf colBatchCex 0))
        / stdQ (1 / 1000) (colOf colBatchCex 0) = 9 / 11
    rw [List.getD_cons_zero, col0_of_colBatchCex, meanQ_col0, stdQ_col0]
    norm_num
  have h0 : ((normalizeAxis1 (1 / 1000) colBatchCex).getD 0 []).getD 0 0
      = ((normalizeBatchColumnsSpec (1 / 1000) colBatchCex).getD 0 []).getD 0 0 := by
    rw [h]
  rw [hL, hR] at h0
  exact absurd h0 (by norm_num)

/-! C1: the Bellman regression target of the inner loop. -/

theorem length_normalizeAxis1 (eps : ℚ) (m : List (List ℚ)) :
    (normalizeAxis1 eps m).length = m.length := by
  rw [normalizeAxis1_eq_map, List.length_map]

theorem length_maxNextQ (ctx : LoopCtx) :
    (maxNextQ ctx).length = ctx.nextStatesN.length := by
  simp [maxNextQ]

theorem computeTargetQ_getD (ctx : LoopCtx) (i : Nat)
    (h1 : i < (maxNextQ ctx).length) (h2 : i < ctx.donesF.length)
    (h3 : i < ctx.rewards.length) :
    (computeTargetQ ctx).getD i 0
      = (maxNextQ ctx).getD i 0 * (1 - ctx.donesF.getD i 0) * ctx.gamma
        + ctx.rewards.getD i 0 := by
  have hlen : i < (computeTargetQ ctx).length := by
    simp only [computeTargetQ, List.length_zipWith, List.length_zip, lt_min_iff]
    exact ⟨⟨h1, h2⟩, h3⟩
  have hz : i < ((maxNextQ ctx).zip ctx.donesF).length := by
    simp only [List.length_zip, lt_min_iff]
    exact ⟨h1, h2⟩
  rw [List.getD_eq_getElem _ _ hlen, List.getD_eq_getElem _ _ h1,
    List.getD_eq_getElem _ _ h2, List.getD_eq_getElem _ _ h3]
  simp only [computeTargetQ, List.getElem_zipWith, List.getElem_zip]
  ring

/-- C1: the regression target used in every iteration of the inner gradient
loop — `innerStep` computes `computeTargetQ ctx` from the loop context `ctx`,
which is fixed for all 20 iterations — equals, elementwise,
`maxNextQ * (1 - done) * gamma + reward`, where `maxNextQ` is the per-row
maximum of the target network's forward pass on the normalized next states,
`done` is the transition's done flag as 0/1, and `gamma`/`reward` are the
trainer's discount factor and the batch's rewards; `done = true` zeroes the
discounted future term. -/
theorem C1_target_formula (tr : DQNAgentTrainer)
    (states actions next_states : List (List ℚ)) (rewards : List ℚ)
    (dones : List Bool) (i : Nat)
    (h1 : i < next_states.length) (h2 : i < dones.length)
    (h3 : i < rewards.length) :
    (computeTargetQ (trainCtx tr states actions next_states rewards dones)).getD i 0
      = (maxNextQ (trainCtx tr states actions next_states rewards dones)).getD i 0
          * (1 - (if dones.getD i false then (1 : ℚ) else 0)) * tr.gamma
          + rewards.getD i 0
    ∧ (dones.getD i false = true →
        (computeTargetQ (trainCtx tr states actions next_states rewards dones)).getD i 0
          = rewards.getD i 0)
    ∧ maxNextQ (trainCtx tr states actions next_states rewards dones)
        = ((normalizeAxis1 (1 / 1000) next_states).map
            (QNetworkDevice.forward tr.q_network)).map rowMax := by
  have hm : i < (maxNextQ (trainCtx tr states actions next_states rewards dones)).length := by
    rw [length_maxNextQ]
    show i < (normalizeAxis1 (1 / 1000) next_states).length
    rw [length_normalizeAxis1]
    exact h1
  have hd : i < (trainCtx tr states actions next_states rewards dones).donesF.length := by
    show i < (dones.map fun d => if d then (1 : ℚ) else 0).length
    rw [List.length_map]
    exact h2
  have hdF : (trainCtx tr states actions next_states rewards dones).donesF.getD i 0
      = (if dones.getD i false then (1 : ℚ) else 0) := by
    show (dones.map fun d => if d then (1 : ℚ) else 0).getD i 0
        = (if dones.getD i false then (1 : ℚ) else 0)
    have hd2 : i < (dones.map fun d => if d then (1 : ℚ) else 0).length := by
      rw [List.length_map]; exact h2
    rw [List.getD_eq_getElem _ _ hd2, List.getD_eq_getElem _ _ h2, List.getElem_map]
  have hmain := computeTargetQ_getD (trainCtx tr states actions next_states rewards dones) i hm hd h3
  have hg : (trainCtx tr states actions next_states rewards dones).gamma = tr.gamma := rfl
  have hr : (trainCtx tr states actions next_states rewards dones).rewards = rewards := rfl
  rw [hdF, hg, hr] at hmain
  refine ⟨hmain, ?_, rfl⟩
  intro hdone
  rw [hmain, hdone]
  norm_num

/-- C1 witness: a concrete one-transition batch with `done = true`, where
the target collapses to the reward `5`. -/
theorem C1_target_formula_witness :
    [true].getD 0 false = true
    ∧ (computeTargetQ (trainCtx trZ [[0]] [[0]] [[0]] [(5 : ℚ)] [true])).getD 0 0
        = [(5 : ℚ)].getD 0 0 :=
  ⟨rfl, (C1_target_formula trZ [[0]] [[0]] [[0]] [(5 : ℚ)] [true] 0
    (by decide) (by decide) (by decide)).2.1 rfl⟩

/-! C5, C7, C10: the query interface. -/

/-- C5: `expected_value` normalizes the state vector along its feature axis,
forwards it through the **target** network — its result does not depend on
the online network — applies the NaN guard (`nansTo`, the identity on the
NaN-free carrier `ℚ`), and returns a vector whose length is the output
dimension of the target network's third layer (`ACTION_SIZE`); as a pure
function of the trainer and the state it is deterministic. -/
theorem C5_expected_value (tr : DQNAgentTrainer) (s : List ℚ) (actionSize : Nat)
    (hw : tr.target_q_net.l3.weight.length = actionSize)
    (hb : tr.target_q_net.l3.bias.length = actionSize) :
    tr.expected_value s
      = (tr.target_q_net.forward (normalizeVec (1 / 1000) s)).map (nansTo 0)
    ∧ (∀ q : QNetworkDevice,
        ({ tr with q_network := q } : DQNAgentTrainer).expected_value s
          = tr.expected_value s)
    ∧ (tr.expected_value s).length = actionSize
    ∧ tr.expected_value s = tr.expected_value s := by
  refine ⟨rfl, fun q => rfl, ?_, rfl⟩
  show ((tr.target_q_net.forward (normalizeVec (1 / 1000) s)).map (nansTo 0)).length
      = actionSize
  rw [List.length_map]
  show (tr.target_q_net.l3.forward
      ((tr.target_q_net.l2.forward
        ((tr.target_q_net.l1.forward (normalizeVec (1 / 1000) s)).map reluQ)).map reluQ)).length
      = actionSize
  rw [Linear.forward, List.length_zipWith, hw, hb, min_self]

/-- C5 witness: the fixture trainer has a 1-output third layer and its
expected value on `[0]` has length 1. -/
theorem C5_expected_value_witness :
    trZ.target_q_net.l3.weight.length = 1
    ∧ (trZ.expected_value [0]).length = 1 :=
  ⟨rfl, (C5_expected_value trZ [0] 1 rfl rfl).2.2.1⟩

/-- C7: `import_model (export_learned_values)` leaves `expected_value`
unchanged on every state, for every trainer state satisfying the trainer's
reachable-state invariant target = online (which holds after construction
and after every completed mutating operation, cf. C4). -/
theorem C7_export_import_roundtrip (tr : DQNAgentTrainer)
    (hinv : tr.target_q_net = tr.q_network) (s : List ℚ) :
    (tr.import_model tr.export_learned_values).expected_value s
      = tr.expected_value s := by
  simp only [DQNAgentTrainer.import_model, DQNAgentTrainer.export_learned_values,
    DQNAgentTrainer.expected_value, hinv]

/-- C7 witness: the round trip on the fixture trainer. -/
theorem C7_export_import_roundtrip_witness :
    trZ.target_q_net = trZ.q_network
    ∧ (trZ.import_model trZ.export_learned_values).expected_value [0]
        = trZ.expected_value [0] :=
  ⟨rfl, C7_export_import_roundtrip trZ rfl [0]⟩

/-- C10: `best_action` always returns `Some`, handing the entire
expected-value vector to the domain decoder, in particular for a freshly
constructed (untrained) trainer. -/
theorem C10_best_action_some {A : Type} (decode : List ℚ → A)
    (tr : DQNAgentTrainer) (s : List ℚ) (g lr : ℚ) (net0 : QNetworkDevice) :
    tr.best_action decode s = some (decode (tr.expected_value s))
    ∧ (tr.best_action decode s).isSome = true
    ∧ ((DQNAgentTrainer.new g lr net0).best_action decode s).isSome = true :=
  ⟨rfl, rfl, rfl⟩

/-! C4: the target/online synchronization protocol. -/

/-- C4: the target network's parameters equal the online network's after
construction, after every `import_model`, and after every completed
`train_dqn` call; equal parameters make the two networks produce identical
outputs for every input. -/
theorem C4_target_online_sync :
    (∀ (g lr : ℚ) (net0 : QNetworkDevice),
      (DQNAgentTrainer.new g lr net0).target_q_net
        = (DQNAgentTrainer.new g lr net0).q_network)
    ∧ (∀ (tr : DQNAgentTrainer) (m : QNetworkDevice),
        (tr.import_model m).target_q_net = (tr.import_model m).q_network)
    ∧ (∀ (tr : DQNAgentTrainer) (backward : BackwardFn)
        (states actions next_states : List (List ℚ)) (rewards : List ℚ)
        (dones : List Bool) (tr' : DQNAgentTrainer),
        tr.train_dqn backward states actions next_states rewards dones = .ok tr' →
        tr'.target_q_net = tr'.q_network)
    ∧ (∀ (tr : DQNAgentTrainer) (x : List ℚ),
        tr.target_q_net = tr.q_network →
        tr.target_q_net.forward x = tr.q_network.forward x) := by
  refine ⟨fun g lr n => rfl, fun tr m => rfl, ?_, fun tr x h => by rw [h]⟩
  intro tr backward states actions next_states rewards dones tr' h
  unfold DQNAgentTrainer.train_dqn at h
  cases hl : innerLoop backward (trainCtx tr states actions next_states rewards dones)
      20 (tr.q_network, tr.vel) with
  | error e =>
    rw [hl] at h
    exact absurd h (by simp)
  | ok p =>
    rw [hl] at h
    obtain ⟨q, v⟩ := p
    have h2 := Except.ok.inj h
    rw [← h2]

set_option maxRecDepth 2000 in
/-- C4 witness: a concrete completed `train_dqn` run (zero network, zero
gradients, 64-row zero batch) after which target equals online, plus the
identical-outputs consequence. -/
theorem C4_target_online_sync_witness :
    trZ.train_dqn bwZ batchZS batchZS batchZS batchZR batchZD = .ok trZ
    ∧ trZ.target_q_net = trZ.q_network
    ∧ trZ.target_q_net.forward [0] = trZ.q_network.forward [0] :=
  have hok : trZ.train_dqn bwZ batchZS batchZS batchZS batchZR batchZD = .ok trZ := by
    with_unfolding_all rfl
  ⟨hok,
   C4_target_online_sync.2.2.1 trZ bwZ batchZS batchZS batchZS batchZR batchZD trZ hok,
   C4_target_online_sync.2.2.2 trZ [0] rfl⟩

/-! C8: a missing gradient is fatal, with no retry. -/

theorem sgdUpdate_unused_params (lr mom : ℚ) (vel : Velocities)
    (net : QNetworkDevice) (g : Gradients) (h : g.complete = false) :
    sgdUpdate lr mom vel net g = .error "Unused params" := by
  obtain ⟨⟨w1, b1⟩, ⟨w2, b2⟩, ⟨w3, b3⟩⟩ := g
  cases w1 <;> cases b1 <;> cases w2 <;> cases b2 <;> cases w3 <;> cases b3 <;>
    simp_all [sgdUpdate, Gradients.complete]

/-- C8: if during any inner gradient step some learnable parameter of the
online network receives no gradient, the SGD update fails with
"Unused params", that step aborts (returns the error instead of a new
state), the inner loop stops at that step with the same error (no retry, no
continuation with remaining iterations), and `train_dqn` propagates the
abort (the Rust `.expect("Unused params")` panic). -/
theorem C8_no_gradient_aborts :
    (∀ (lr mom : ℚ) (vel : Velocities) (net : QNetworkDevice) (g : Gradients),
      g.complete = false → sgdUpdate lr mom vel net g = .error "Unused params")
    ∧ (∀ (backward : BackwardFn) (ctx : LoopCtx) (st : QNetworkDevice × Velocities),
        (backward st.1 ctx.statesN ctx.actionIdxs (computeTargetQ ctx)
          (huber_loss (selectQ (ctx.statesN.map st.1.forward) ctx.actionIdxs)
            (computeTargetQ ctx) 1)).complete = false →
        innerStep backward ctx st = .error "Unused params")
    ∧ (∀ (backward : BackwardFn) (ctx : LoopCtx) (st : QNetworkDevice × Velocities)
        (n : Nat) (e : String),
        innerStep backward ctx st = .error e →
        innerLoop backward ctx (n + 1) st = .error e)
    ∧ (∀ (tr : DQNAgentTrainer) (backward : BackwardFn)
        (states actions next_states : List (List ℚ)) (rewards : List ℚ)
        (dones : List Bool) (e : String),
        innerLoop backward (trainCtx tr states actions next_states rewards dones) 20
          (tr.q_network, tr.vel) = .error e →
        tr.train_dqn backward states actions next_states rewards dones = .error e) := by
  refine ⟨sgdUpdate_unused_params, ?_, ?_, ?_⟩
  · intro backward ctx st h
    simp only [innerStep]
    rw [sgdUpdate_unused_params _ _ _ _ _ h]
  · intro backward ctx st n e h
    simp only [innerLoop]
    rw [h]
  · intro tr backward states actions next_states rewards dones e h
    unfold DQNAgentTrainer.train_dqn
    rw [h]

set_option maxRecDepth 2000 in
/-- C8 witness: a backward engine that produces no gradients makes the
update fail, and the concrete `train_dqn` run aborts with the same error. -/
theorem C8_no_gradient_aborts_witness :
    gradsNone.complete = false
    ∧ sgdUpdate 0 (9 / 10) (zeroVelOf netZ) netZ gradsNone = .error "Unused params"
    ∧ trZ.train_dqn bwNone batchZS batchZS batchZS batchZR batchZD
        = .error "Unused params" :=
  have hg : gradsNone.complete = false := rfl
  have hloop : innerLoop bwNone
      (trainCtx trZ batchZS batchZS batchZS batchZR batchZD) 20
      (trZ.q_network, trZ.vel) = .error "Unused params" := by
    with_unfolding_all rfl
  ⟨hg, C8_no_gradient_aborts.1 0 (9 / 10) (zeroVelOf netZ) netZ gradsNone hg,
   C8_no_gradient_aborts.2.2.2 trZ bwNone batchZS batchZS batchZS batchZR batchZD
     "Unused params" hloop⟩

/-! C6: shape and zero-padding of collected batches. -/

theorem getD_replicate_of_lt {α : Type} (a d : α) {n j : Nat} (h : j < n) :
    (List.replicate n a).getD j d = a := by
  rw [List.getD_eq_getElem?_getD, List.getElem?_replicate, if_pos h]
  rfl

theorem getD_replicate_false {n i : Nat} :
    (List.replicate n false).getD i false = false := by
  rw [List.getD_eq_getElem?_getD, List.getElem?_replicate]
  split <;> rfl

theorem getD_set_ne {α : Type} (l : List α) (i j : Nat) (a d : α) (h : i ≠ j) :
    (l.set i a).getD j d = l.getD j d := by
  rw [List.getD_eq_getElem?_getD, List.getD_eq_getElem?_getD,
    List.getElem?_set_ne h]

theorem getD_set_self {α : Type} (l : List α) (i : Nat) (a d : α)
    (h : i < l.length) :
    (l.set i a).getD i d = a := by
  rw [List.getD_eq_getElem?_getD, List.getElem?_set_eq_of_lt a h]
  rfl

theorem set_done_unique {i k : Nat}
    (hk : ((List.replicate 64 false).set i true).getD k false = true) : k = i := by
  by_cases h : i = k
  · exact h.symm
  · rw [getD_set_ne _ _ _ _ _ h, getD_replicate_false] at hk
    cases hk

theorem collectGo_spec {S A Ag Tm : Type}
    (current_state : Ag → S) (pick_action : Ag → A × Ag) (rewardOf : S → ℚ)
    (should_stop : Tm → S → Bool × Tm)
    (toVecS : S → List ℚ) (toVecA : A → List ℚ) (nS nA : Nat) :
    ∀ (fuel i : Nat) (arrs : BatchArrays) (ag : Ag) (tm : Tm) (sL : S),
      i + fuel = 64 →
      arrs.states.length = 64 → arrs.actions.length = 64 →
      arrs.next_states.length = 64 → arrs.rewards.length = 64 →
      arrs.dones = List.replicate 64 false →
      (∀ j, i ≤ j → j < 64 →
        arrs.states.getD j [] = List.replicate nS 0
          ∧ arrs.actions.getD j [] = List.replicate nA 0
          ∧ arrs.next_states.getD j [] = List.replicate nS 0
          ∧ arrs.rewards.getD j 0 = 0) →
      BatchOk nS nA
        (collectGo current_state pick_action rewardOf should_stop toVecS toVecA
          fuel i arrs ag tm sL).1 := by
  intro fuel
  induction fuel with
  | zero =>
    intro i arrs ag tm sL hif hs ha hn hr hd hdef
    simp only [collectGo]
    refine ⟨hs, ha, hn, hr, by rw [hd, List.length_replicate], ?_, ?_⟩
    · intro i' j hij hj hdone
      rw [hd, getD_replicate_false] at hdone
      cases hdone
    · intro i' j h1 h2
      rw [hd, getD_replicate_false] at h1
      cases h1
  | succ fuel ih =>
    intro i arrs ag tm sL hif hs ha hn hr hd hdef
    show BatchOk nS nA (collectGo current_state pick_action rewardOf should_stop
        toVecS toVecA (fuel + 1) i arrs ag tm sL).1
    rcases hst : should_stop tm (current_state (pick_action ag).2) with ⟨b, tm'⟩
    cases b with
    | false =>
      have hstep : collectGo current_state pick_action rewardOf should_stop
          toVecS toVecA (fuel + 1) i arrs ag tm sL
          = collectGo current_state pick_action rewardOf should_stop toVecS toVecA
            fuel (i + 1)
            { states := arrs.states.set i (toVecS (current_state ag)),
              actions := arrs.actions.set i (toVecA (pick_action ag).1),
              next_states :=
                arrs.next_states.set i (toVecS (current_state (pick_action ag).2)),
              rewards := arrs.rewards.set i (rewardOf (current_state (pick_action ag).2)),
              dones := arrs.dones }
            (pick_action ag).2 tm' (current_state (pick_action ag).2) := by
        simp only [collectGo, hst]
      rw [hstep]
      apply ih (i + 1) _ _ _ _ (by omega)
      · rw [List.length_set]; exact hs
      · rw [List.length_set]; exact ha
      · rw [List.length_set]; exact hn
      · rw [List.length_set]; exact hr
      · exact hd
      · intro j hj1 hj2
        have hne : i ≠ j := by omega
        have hdj := hdef j (by omega) hj2
        exact ⟨by rw [getD_set_ne _ _ _ _ _ hne]; exact hdj.1,
          by rw [getD_set_ne _ _ _ _ _ hne]; exact hdj.2.1,
          by rw [getD_set_ne _ _ _ _ _ hne]; exact hdj.2.2.1,
          by rw [getD_set_ne _ _ _ _ _ hne]; exact hdj.2.2.2⟩
    | true =>
      have hstep : (collectGo current_state pick_action rewardOf should_stop
          toVecS toVecA (fuel + 1) i arrs ag tm sL).1
          = { states := arrs.states.set i (toVecS (current_state ag)),
              actions := arrs.actions.set i (toVecA (pick_action ag).1),
              next_states :=
                arrs.next_states.set i (toVecS (current_state (pick_action ag).2)),
              rewards := arrs.rewards.set i (rewardOf (current_state (pick_action ag).2)),
              dones := arrs.dones.set i true } := by
        simp only [collectGo, hst]
      rw [hstep]
      have hdone_char : ∀ k, (arrs.dones.set i true).getD k false = true → k = i := by
        intro k hk
        rw [hd] at hk
        exact set_done_unique hk
      refine ⟨by rw [List.length_set]; exact hs,
        by rw [List.length_set]; exact ha,
        by rw [List.length_set]; exact hn,
        by rw [List.length_set]; exact hr,
        by rw [List.length_set, hd, List.length_replicate], ?_, ?_⟩
      · intro i' j hij hj hdone
        have hi' : i' = i := hdone_char i' hdone
        have hne : i ≠ j := by omega
        have hdj := hdef j (by omega) hj
        refine ⟨by rw [getD_set_ne _ _ _ _ _ hne]; exact hdj.1,
          by rw [getD_set_ne _ _ _ _ _ hne]; exact hdj.2.1,
          by rw [getD_set_ne _ _ _ _ _ hne]; exact hdj.2.2.1,
          by rw [getD_set_ne _ _ _ _ _ hne]; exact hdj.2.2.2, ?_⟩
        rw [hd, getD_set_ne _ _ _ _ _ hne, getD_replicate_false]
      · intro i' j h1 h2
        rw [hdone_char i' h1, hdone_char j h2]

/-- C6: every batch handed to the training step by the collection loop has
all five arrays of length 64; if the done flag at index `i` is set then
every entry at an index greater than `i` is still all-zero with
`done = false` (filling stopped at `i`); and at most one done flag is set.
The arrays start from the all-zero/false initialization of `collectBatch`. -/
theorem C6_batch_collection {S A Ag Tm : Type}
    (current_state : Ag → S) (pick_action : Ag → A × Ag) (rewardOf : S → ℚ)
    (should_stop : Tm → S → Bool × Tm)
    (toVecS : S → List ℚ) (toVecA : A → List ℚ) (nS nA : Nat) (ag : Ag) (tm : Tm) :
    BatchOk nS nA
      (collectBatch current_state pick_action rewardOf should_stop toVecS toVecA
        nS nA ag tm).1 := by
  apply collectGo_spec current_state pick_action rewardOf should_stop toVecS toVecA
    nS nA 64 0 _ ag tm (current_state ag) (by omega)
  · exact List.length_replicate 64 _
  · exact List.length_replicate 64 _
  · exact List.length_replicate 64 _
  · exact List.length_replicate 64 _
  · rfl
  · intro j hj1 hj2
    exact ⟨getD_replicate_of_lt _ _ hj2, getD_replicate_of_lt _ _ hj2,
      getD_replicate_of_lt _ _ hj2, getD_replicate_of_lt _ _ hj2⟩

set_option maxRecDepth 2000 in
/-- C6 witness: with a termination strategy that stops on its first call,
the collected batch has its only done flag at index 0 and index 1 is still
all-zero with `done = false`. -/
theorem C6_batch_collection_witness :
    (collectBatch (fun _ : Unit => ()) (fun _ => ((), ())) (fun _ => 0) stZ
        (fun _ => [0]) (fun _ => [0]) 1 1 () 0).1.dones.getD 0 false = true
    ∧ (collectBatch (fun _ : Unit => ()) (fun _ => ((), ())) (fun _ => 0) stZ
        (fun _ => [0]) (fun _ => [0]) 1 1 () 0).1.states.getD 1 []
        = List.replicate 1 0
    ∧ (collectBatch (fun _ : Unit => ()) (fun _ => ((), ())) (fun _ => 0) stZ
        (fun _ => [0]) (fun _ => [0]) 1 1 () 0).1.dones.getD 1 false = false :=
  have hdone : (collectBatch (fun _ : Unit => ()) (fun _ => ((), ())) (fun _ => 0) stZ
      (fun _ => [0]) (fun _ => [0]) 1 1 () 0).1.dones.getD 0 false = true := by
    with_unfolding_all rfl
  have hb := (C6_batch_collection (fun _ : Unit => ()) (fun _ => ((), ()))
      (fun _ => 0) stZ (fun _ => [0]) (fun _ => [0]) 1 1 () 0).2.2.2.2.2.1
      0 1 (by omega) (by omega) hdone
  ⟨hdone, hb.1, hb.2.2.2.2⟩

/-! C9: the outer loop's termination decision is a separate second
`should_stop` call. -/

/-- C9: after a batch ends (early or full), the outer loop of `train` makes
one more `should_stop` call, on the strategy state `tm'` left by the batch's
own calls and on the most recently observed state; the loop stops exactly
when this separate call returns true — a batch that ended early (some done
flag set) does not by itself end training.  For the stateful
`FixedIterations` strategy every call advances the counter, so this
deciding call is distinguishable from the call that ended the batch. -/
theorem C9_second_stop_decides {S A Ag Tm : Type}
    (current_state : Ag → S) (pick_action : Ag → A × Ag) (rewardOf : S → ℚ)
    (should_stop : Tm → S → Bool × Tm)
    (toVecS : S → List ℚ) (toVecA : A → List ℚ) (nS nA : Nat)
    (backward : BackwardFn) (fuel : Nat) (tr : DQNAgentTrainer) (ag : Ag) (tm : Tm)
    (arrs : BatchArrays) (ag' : Ag) (tm' : Tm) (sLast : S)
    (hc : collectBatch current_state pick_action rewardOf should_stop toVecS toVecA
        nS nA ag tm = (arrs, ag', tm', sLast))
    (tr' : DQNAgentTrainer)
    (hok : tr.train_dqn backward arrs.states arrs.actions arrs.next_states
        arrs.rewards arrs.dones = .ok tr') :
    ((should_stop tm' sLast).1 = false →
      DQNAgentTrainer.train current_state pick_action rewardOf should_stop
          toVecS toVecA nS nA backward (fuel + 1) tr ag tm
        = DQNAgentTrainer.train current_state pick_action rewardOf should_stop
            toVecS toVecA nS nA backward fuel tr' ag' (should_stop tm' sLast).2)
    ∧ ((should_stop tm' sLast).1 = true →
      DQNAgentTrainer.train current_state pick_action rewardOf should_stop
          toVecS toVecA nS nA backward (fuel + 1) tr ag tm
        = some (.ok (tr', ag', (should_stop tm' sLast).2)))
    ∧ (∀ (f : FixedIterations) (s2 : S),
        (FixedIterations.should_stop f s2).2.i = f.i + 1) := by
  refine ⟨?_, ?_, fun f s2 => rfl⟩
  · intro hfalse
    rcases hs2 : should_stop tm' sLast with ⟨b, tm2⟩
    rw [hs2] at hfalse
    simp only at hfalse
    subst hfalse
    simp only [DQNAgentTrainer.train, hc, hok, hs2]
  · intro htrue
    rcases hs2 : should_stop tm' sLast with ⟨b, tm2⟩
    rw [hs2] at htrue
    simp only at htrue
    subst htrue
    simp only [DQNAgentTrainer.train, hc, hok, hs2]

set_option maxRecDepth 2000 in
/-- C9 witness: a batch that stops at index 0 (its done flag is set) does
not end training — the separate second call returns false, so the outer
loop continues with the advanced strategy state. -/
theorem C9_second_stop_decides_witness :
    arrsC.dones.getD 0 false = true
    ∧ (stZ 1 ()).1 = false
    ∧ DQNAgentTrainer.train (fun _ : Unit => ()) (fun _ => ((), ())) (fun _ => 0) stZ
        (fun _ => [0]) (fun _ => [0]) 1 1 bwZ 1 trZ () 0
      = DQNAgentTrainer.train (fun _ : Unit => ()) (fun _ => ((), ())) (fun _ => 0) stZ
        (fun _ => [0]) (fun _ => [0]) 1 1 bwZ 0 trZ () 2 :=
  have hc : collectBatch (fun _ : Unit => ()) (fun _ => ((), ())) (fun _ => 0) stZ
      (fun _ => [0]) (fun _ => [0]) 1 1 () 0 = (arrsC, (), 1, ()) := by
    with_unfolding_all rfl
  have hok : trZ.train_dqn bwZ arrsC.states arrsC.actions arrsC.next_states
      arrsC.rewards arrsC.dones = .ok trZ := by
    with_unfolding_all rfl
  have h := (C9_second_stop_decides (fun _ : Unit => ()) (fun _ => ((), ()))
      (fun _ => 0) stZ (fun _ => [0]) (fun _ => [0]) 1 1 bwZ 0 trZ () 0
      arrsC () 1 () hc trZ hok).1 rfl
  ⟨by with_unfolding_all rfl, rfl, h⟩
